import Mathlib

/-!
Verification of the fetch-paginate-retry-cache engine of the f1HistoryViewer
repository. Each definition below is a shallow embedding of a function of the
TypeScript source; JavaScript numbers are modelled as rationals (every value
the embedded code computes is an exact decimal), JavaScript strings as `String`
or `List Char`, fallible calls as `Option`/`Except`, and the ambient network as
an explicit oracle function indexed by the order of the requests a run issues.
-/

/-!
Model of the ECMAScript primitives the source leans on, restricted to the
decimal fragment the repository's data uses (no hexadecimal, exponent or
Infinity forms): `Number(s)`, `parseFloat(s)`, `s.trim()`, `s.split(':')`.
`none` stands for NaN.
-/

namespace JsModel

def jsWs (c : Char) : Bool :=
  c = ' ' || c = '\t' || c = '\n' || c = '\r'

def jsTrimChars (l : List Char) : List Char :=
  ((l.dropWhile jsWs).reverse.dropWhile jsWs).reverse

def isDigitC (c : Char) : Bool := c.isDigit

def digChar (c : Char) : Nat := c.toNat - '0'.toNat

def intDigitsVal (l : List Char) : Nat :=
  l.foldl (fun acc c => acc * 10 + digChar c) 0

def fracDigitsVal (l : List Char) : ℚ :=
  l.foldr (fun c acc => ((digChar c : ℚ) + acc) / 10) 0

/-- Whole-string decimal numeral: digits [. digits], at least one digit. -/
def parseUnsignedAll (l : List Char) : Option ℚ :=
  let ip := l.takeWhile isDigitC
  let rest := l.dropWhile isDigitC
  match rest with
  | [] => if ip.isEmpty then none else some (intDigitsVal ip)
  | c :: fp =>
    if c = '.' && fp.all isDigitC && (!ip.isEmpty || !fp.isEmpty) then
      some ((intDigitsVal ip : ℚ) + fracDigitsVal fp)
    else none

def parseSignedAll (l : List Char) : Option ℚ :=
  match l with
  | '+' :: r => parseUnsignedAll r
  | '-' :: r => (parseUnsignedAll r).map Neg.neg
  | _ => parseUnsignedAll l

/-- `Number(s)`: trims, maps the empty string to 0, otherwise requires the
whole string to be a signed decimal numeral; NaN is `none`. -/
def jsNumberChars (l : List Char) : Option ℚ :=
  let t := jsTrimChars l
  if t.isEmpty then some 0 else parseSignedAll t

def jsNumberOpt (s : Option String) : Option ℚ :=
  match s with
  | none => none
  | some s => jsNumberChars s.toList

/-- Maximal numeric prefix after the optional sign: digits then optionally a
point and further digits; NaN (`none`) when no digit is consumed. -/
def parseFloatUnsigned (l : List Char) : Option ℚ :=
  let ip := l.takeWhile isDigitC
  let rest := l.dropWhile isDigitC
  let fp := match rest with
    | '.' :: r2 => r2.takeWhile isDigitC
    | _ => []
  if ip.isEmpty && fp.isEmpty then none
  else some ((intDigitsVal ip : ℚ) + fracDigitsVal fp)

/-- `parseFloat(s)`: skips leading whitespace and parses the longest numeric
prefix, ignoring the rest of the string. -/
def jsParseFloatChars (l : List Char) : Option ℚ :=
  let t := l.dropWhile jsWs
  match t with
  | '+' :: r => parseFloatUnsigned r
  | '-' :: r => (parseFloatUnsigned r).map Neg.neg
  | _ => parseFloatUnsigned t

/-- `s.split(':')` on the character list. -/
def splitOnColon : List Char → List (List Char)
  | [] => [[]]
  | c :: rest =>
    let r := splitOnColon rest
    if c = ':' then [] :: r
    else
      match r with
      | h :: t => (c :: h) :: t
      | [] => [[c]]

/-- Insertion-ordered string-keyed record update, the behaviour of
`obj[k] = f(obj[k] ?? dflt)` on a plain JavaScript object. -/
def recordUpdate {β : Type} (m : List (String × β)) (k : String) (dflt : β)
    (f : β → β) : List (String × β) :=
  if m.any (fun p => p.1 == k) then
    m.map (fun p => if p.1 == k then (p.1, f p.2) else p)
  else m ++ [(k, f dflt)]

def recordLookup {β : Type} (m : List (String × β)) (k : String) : Option β :=
  (m.find? (fun p => p.1 == k)).map (fun p => p.2)

/-- A browser date; the source only ever reads `getFullYear()`. -/
structure JsDate where
  year : Nat
  dayOfYear : Nat
deriving DecidableEq

end JsModel

open JsModel

/-!
The resilient fetchers. Each run is driven by a response oracle
`responses : Nat → ...` giving the reply to the attempt-numbered HTTP request
(each loop iteration of every fetcher issues exactly one request). A run's
outcome records the JavaScript return/throw, the number of requests issued and
the total milliseconds spent in `sleep` calls.
-/

/-- The distinct `throw new Error(...)` sites of the three fetchers. -/
inductive JsError where
  | requestFailed : JsError
  | repeatedlyRateLimited : JsError
  | throttledOrServer : JsError
  | requestFailedStatus : Nat → JsError
  | statusFailure : Nat → JsError
  | jsonFailure : JsError
  | failedToFetch : JsError
deriving DecidableEq

instance {ε α : Type} [DecidableEq ε] [DecidableEq α] : DecidableEq (Except ε α) :=
  fun a b =>
    match a, b with
    | .ok x, .ok y => if h : x = y then isTrue (by rw [h]) else isFalse (by simp [h])
    | .error x, .error y => if h : x = y then isTrue (by rw [h]) else isFalse (by simp [h])
    | .ok _, .error _ => isFalse (by simp)
    | .error _, .ok _ => isFalse (by simp)

structure FetchRun (α : Type) where
  result : Except JsError α
  requests : Nat
  slept : Nat
deriving DecidableEq

/-- `res.ok`: the WHATWG fetch success range. -/
def resOk (status : Nat) : Bool := 200 ≤ status && status < 300

namespace DriverStatsPage

/-- A fetch response as `fetchJsonWithBackoff` of DriverStats.tsx consumes it:
only the status code and the parsed body matter. -/
structure HttpResp (α : Type) where
  status : Nat
  json : α

/-- The `while (attempt < maxRetries)` loop of DriverStats.tsx's
`fetchJsonWithBackoff`, recursing on the remaining allowed attempts
(`rem = maxRetries - attempt`). On 429: sleep `baseDelay * (attempt + 1)` and
retry. On any other non-2xx: throw `Request failed` at once. -/
def fetchJsonWithBackoffGo {α : Type} (responses : Nat → HttpResp α) (baseDelay : Nat) :
    Nat → Nat → Nat → FetchRun α
  | 0, attempt, slept => ⟨.error .repeatedlyRateLimited, attempt, slept⟩
  | rem + 1, attempt, slept =>
    let res := responses attempt
    if res.status = 429 then
      fetchJsonWithBackoffGo responses baseDelay rem (attempt + 1)
        (slept + baseDelay * (attempt + 1))
    else if !resOk res.status then ⟨.error .requestFailed, attempt + 1, slept⟩
    else ⟨.ok res.json, attempt + 1, slept⟩

/-- `fetchJsonWithBackoff(url, maxRetries, baseDelay)` of DriverStats.tsx
(call-site defaults: maxRetries = 6, baseDelay = 600). -/
def fetchJsonWithBackoff {α : Type} (responses : Nat → HttpResp α)
    (maxRetries baseDelay : Nat) : FetchRun α :=
  fetchJsonWithBackoffGo responses baseDelay maxRetries 0 0

end DriverStatsPage

namespace PitstopsPage

/-- A fetch response as the Pitstops page's `fetchJsonWithBackoff` consumes it;
`json = none` models `res.json()` throwing. A rejected `fetch` itself takes the
same catch path as a json failure and is covered by the same constructor. -/
structure HttpResp (α : Type) where
  status : Nat
  json : Option α

/-- The `for (let attempt = 0; attempt <= retries; attempt++)` loop of the
Pitstops page's `fetchJsonWithBackoff`. Note that the `Request failed` throw
for a non-2xx, non-429, non-5xx status sits inside the `try`, so it is caught
by the fetcher's own `catch` and retried until `attempt === retries`. On
success the fetcher sleeps `REQUEST_SPACING_MS` (700) before returning. -/
def fetchJsonWithBackoffGo {α : Type} (responses : Nat → HttpResp α)
    (retries baseDelay : Nat) : Nat → Nat → Nat → FetchRun α
  | 0, attempt, slept => ⟨.error .failedToFetch, attempt, slept⟩
  | rem + 1, attempt, slept =>
    let res := responses attempt
    if res.status = 429 || 500 ≤ res.status then
      if attempt = retries then ⟨.error .throttledOrServer, attempt + 1, slept⟩
      else
        fetchJsonWithBackoffGo responses retries baseDelay rem (attempt + 1)
          (slept + baseDelay * (attempt + 1))
    else if !resOk res.status then
      if attempt = retries then ⟨.error (.requestFailedStatus res.status), attempt + 1, slept⟩
      else
        fetchJsonWithBackoffGo responses retries baseDelay rem (attempt + 1)
          (slept + baseDelay * (attempt + 1))
    else
      match res.json with
      | some j => ⟨.ok j, attempt + 1, slept + 700⟩
      | none =>
        if attempt = retries then ⟨.error .jsonFailure, attempt + 1, slept⟩
        else
          fetchJsonWithBackoffGo responses retries baseDelay rem (attempt + 1)
            (slept + baseDelay * (attempt + 1))

/-- `fetchJsonWithBackoff(url, retries, baseDelay)` of the Pitstops page
(call-site defaults: retries = MAX_RETRIES = 6, baseDelay = 800). -/
def fetchJsonWithBackoff {α : Type} (responses : Nat → HttpResp α)
    (retries baseDelay : Nat) : FetchRun α :=
  fetchJsonWithBackoffGo responses retries baseDelay (retries + 1) 0 0

end PitstopsPage

namespace SeasonResultsPage

/-- A fetch response as `fetchJsonWithRetry` consumes it: the status, the
parsed body (`none` when `res.json()` throws, which the inner catch absorbs by
leaving `json = null`), and whether the body's `detail`/`message` text says
"throttled". A rejected `fetch` takes the same path as the client-error throw
and is covered by the same retry behaviour. -/
structure HttpResp (α : Type) where
  status : Nat
  json : Option α
  throttledBody : Bool

/-- The `for (let attempt = 0; attempt <= retries; attempt++)` loop of
`fetchJsonWithRetry`. The client-error `throw` for a non-retryable non-2xx
status is inside the `try`, so the fetcher's own `catch` swallows it and
retries with backoff until `attempt === retries`. -/
def fetchJsonWithRetryGo {α : Type} (responses : Nat → HttpResp α)
    (retries backoffMs : Nat) : Nat → Nat → Nat → FetchRun (Option α)
  | 0, attempt, slept => ⟨.error .failedToFetch, attempt, slept⟩
  | rem + 1, attempt, slept =>
    let res := responses attempt
    let throttled := res.status = 429 || (res.json.isSome && res.throttledBody)
    let shouldRetry := throttled || 500 ≤ res.status
    if !shouldRetry then
      if resOk res.status then ⟨.ok res.json, attempt + 1, slept⟩
      else if attempt = retries then ⟨.error (.statusFailure res.status), attempt + 1, slept⟩
      else
        fetchJsonWithRetryGo responses retries backoffMs rem (attempt + 1)
          (slept + backoffMs * (attempt + 1))
    else if attempt = retries then ⟨.error .throttledOrServer, attempt + 1, slept⟩
    else
      fetchJsonWithRetryGo responses retries backoffMs rem (attempt + 1)
        (slept + backoffMs * (attempt + 1))

/-- `fetchJsonWithRetry(url, retries, backoffMs)` of the SeasonResults page
(call-site defaults: retries = 3, backoffMs = 800). -/
def fetchJsonWithRetry {α : Type} (responses : Nat → HttpResp α)
    (retries backoffMs : Nat) : FetchRun (Option α) :=
  fetchJsonWithRetryGo responses retries backoffMs (retries + 1) 0 0

end SeasonResultsPage

/-!
The paginator. `fetchPaginatedRaces` (DriverStats.tsx), the driver-list and
constructor-list loaders and `fetchConstructorResultsPaginated`
(ConstructorStats.tsx) all run the same `while (offset === 0 || offset < total)`
offset/limit loop with page size 100; the loop is embedded once and the cited
page functions instantiate it. The upstream oracle maps a request offset to the
response envelope; `parseInt(mr?.total ?? '0', 10) || 0` is modelled by the
envelope carrying the denoted number.
-/

/-- One page of the upstream envelope: the reported grand total and the page's
row list (`MRData.RaceTable.Races` and friends). -/
structure PageEnvelope (α : Type) where
  total : Nat
  items : List α

/-- The offset/limit accumulation loop, recursing on fuel (the source loop has
no intrinsic bound: `total` is re-read from every response). `total = none`
models the initial `Infinity`; `none` as result means the fuel horizon was hit
before the loop exited. Returns the accumulated rows and the request count. -/
def paginateOffsetLoop {α : Type} (upstream : Nat → PageEnvelope α) (limit : Nat) :
    Nat → Nat → Option Nat → List α → Nat → Option (List α × Nat)
  | 0, _, _, _, _ => none
  | fuel + 1, offset, total, acc, reqs =>
    if offset = 0 ∨ offset < total.getD (offset + 1) then
      let page := upstream offset
      paginateOffsetLoop upstream limit fuel (offset + limit) (some page.total)
        (acc ++ page.items) (reqs + 1)
    else some (acc, reqs)

namespace DriverStatsPage

/-- `fetchPaginatedRaces(urlBuilder)` of DriverStats.tsx: the offset loop at
page size `limit = 100` starting from `offset = 0`, `total = Infinity`. -/
def fetchPaginatedRaces {α : Type} (upstream : Nat → PageEnvelope α) (fuel : Nat) :
    Option (List α × Nat) :=
  paginateOffsetLoop upstream 100 fuel 0 none [] 0

end DriverStatsPage

namespace ConstructorStatsPage

/-- `fetchConstructorResultsPaginated(constructorId)` of ConstructorStats.tsx:
the same offset loop at page size 100. -/
def fetchConstructorResultsPaginated {α : Type} (upstream : Nat → PageEnvelope α)
    (fuel : Nat) : Option (List α × Nat) :=
  paginateOffsetLoop upstream 100 fuel 0 none [] 0

end ConstructorStatsPage

/-- The mocked upstream of the pagination claim: every page reports the same
grand total `T`, and the page at `offset` returns the `min L (T - offset)`
items `items offset, ..., items (offset + min L (T - offset) - 1)`. -/
def mockUpstream {α : Type} (L T : Nat) (items : Nat → α) : Nat → PageEnvelope α :=
  fun offset => ⟨T, (List.range (min L (T - offset))).map (fun i => items (offset + i))⟩

namespace SeasonResultsPage

/-!
The SeasonResults season load and its background reconciliation loop
(DriverStats.tsx's sibling page and src/unnamed/part_008; the two copies differ
only in using `fetchJsonWithRetry` vs a raw `fetch` plus `res.ok` check for the
per-round requests — in both, a failed request contributes no data, which the
oracle models by answering `none`). Result rows are opaque payloads (`Nat`).
-/

/-- A race of the assembled season list: its round key
(`String(r.round ?? r.raceName ?? '')`) and its `Results` array. The remaining
metadata fields are carried along unchanged by the source and irrelevant to
the cache-write claims. -/
structure Race where
  round : String
  results : List Nat
deriving DecidableEq

/-- One parsed response of the background loop:
`MRData.RaceTable.Races?.[0]`, `parseInt(MRData.total)`, and
`parseInt(MRData.limit ?? String(pageLimit))`. -/
structure RoundResp where
  race : Option Race
  total : Nat
  limit : Nat

/-- The network oracle of one background-loop run: the reply to the n-th
request the loop issues; `none` is a rejected fetch / non-ok response. -/
def Net : Type := Nat → Option RoundResp

/-- `Array.isArray(r.Results) && r.Results.length > 0`. -/
def hasResults (r : Race) : Bool := !r.results.isEmpty

/-- The `for (let attempt = 0; attempt < 4; attempt++)` direct per-round fetch:
accepts the response's first race only when its Results are non-empty, in which
case `current[idx] = full` and the attempt loop breaks. -/
def tryDirect (net : Net) : Nat → Nat → Option Race × Nat
  | 0, n => (none, n)
  | rem + 1, n =>
    match net n with
    | some resp =>
      match resp.race with
      | some full =>
        if hasResults full then (some full, n + 1) else tryDirect net rem (n + 1)
      | none => tryDirect net rem (n + 1)
    | none => tryDirect net rem (n + 1)

/-- The offsets visited by `for (let off = limit; off < total; off += limit)`.
When the response reports `limit = 0` the source loop never advances `off`; the
model truncates that degenerate run to no extra pages (this only removes
non-terminating behaviours, and the loop issues no cache write either way). -/
def extraOffsets (limit total : Nat) : List Nat :=
  if limit = 0 then [] else List.range' limit ((total - 1) / limit) limit

/-- The extra-page merge of the fallback: per offset, a successful response
whose first race is present contributes its Results
(`if (pr?.Results) results = results.concat(pr.Results)`); failures are
skipped (`continue` / empty catch). -/
def fetchExtra (net : Net) : List Nat → List Nat → Nat → List Nat × Nat
  | [], results, n => (results, n)
  | _ :: offs, results, n =>
    match net n with
    | some resp =>
      match resp.race with
      | some pr => fetchExtra net offs (results ++ pr.results) (n + 1)
      | none => fetchExtra net offs results (n + 1)
    | none => fetchExtra net offs results (n + 1)

/-- The paginated fallback for one missing round: first page at
`limit = 200, offset = 0`, then extra pages while `total > results.length`,
and `current[idx] = { ...(firstRace ?? r), Results: results }` only when the
merged Results are non-empty. -/
def tryFallback (net : Net) (r : Race) (n : Nat) : Option Race × Nat :=
  match net n with
  | none => (none, n + 1)
  | some first =>
    let res0 := match first.race with
      | some fr => fr.results
      | none => []
    let merged :=
      if res0.length < first.total then fetchExtra net (extraOffsets first.limit first.total) res0 (n + 1)
      else (res0, n + 1)
    if merged.1.isEmpty then (none, merged.2)
    else (some ⟨((first.race).getD r).round, merged.1⟩, merged.2)

/-- One missing round's unit of work inside a sweep: the direct attempts, then
(only if the round is still empty) the paginated fallback. -/
def processRound (net : Net) (r : Race) (n : Nat) : Race × Nat :=
  let direct := tryDirect net 4 n
  let r1 := direct.1.getD r
  if hasResults r1 then (r1, direct.2)
  else
    let fb := tryFallback net r1 direct.2
    (fb.1.getD r1, fb.2)

/-- One full sweep over `current`: rounds that already have Results are
skipped (`if (has) continue`), the rest get `processRound`. -/
def sweepRounds (net : Net) : List Race → Nat → List Race × Nat
  | [], n => ([], n)
  | r :: rest, n =>
    if hasResults r then
      let tail := sweepRounds net rest n
      (r :: tail.1, tail.2)
    else
      let step := processRound net r n
      let tail := sweepRounds net rest step.2
      (step.1 :: tail.1, tail.2)

/-- The outcome of one background reconciliation run: the final working list,
the total request count, the `sessionStorage.setItem(cacheKey, ...)` writes it
performed, the number of shared-state setter calls
(`setSeasonRaces`/`setRacesFetchedCount`/`setMissingRounds`), and whether the
`while (true)` loop exited (`newMissing.length === 0`) within the fuel horizon. -/
structure LoopResult where
  current : List Race
  requests : Nat
  writes : List (List Race)
  stateUpdates : Nat
  completed : Bool
deriving DecidableEq

/-- The background retry IIFE's `while (true)` loop, fuel-indexed by the sweep
count (the source has no bound on sweeps). Per sweep: process every still-empty
round, publish the three state setters, and — only when no round is missing —
write the season cache entry once and break. -/
def reconcileLoop (net : Net) : Nat → List Race → Nat → LoopResult
  | 0, current, n => ⟨current, n, [], 0, false⟩
  | fuel + 1, current, n =>
    let swept := sweepRounds net current n
    let newMissing := (swept.1.filter (fun r => !hasResults r)).map (fun r => r.round)
    if newMissing.isEmpty then
      ⟨swept.1, swept.2, [swept.1], 3, true⟩
    else
      let rest := reconcileLoop net fuel swept.1 swept.2
      ⟨rest.current, rest.requests, rest.writes, 3 + rest.stateUpdates, rest.completed⟩

/-- `mergedRaces`: the sorted season race list with each round's Results drawn
from the merged pagination map (`raceResultsMap.get(key) ?? []`). -/
def mergeRaces (sortedByRound : List Race) (resultsMap : String → List Nat) : List Race :=
  sortedByRound.map (fun r => ⟨r.round, resultsMap r.round⟩)

/-- The outcome of one `load()` run that the cache-write claims observe: the
writes to the `seasonResults_<year>` key and, when the background retry IIFE
was started, its run. -/
structure SeasonRun where
  writes : List (List Race)
  background : Option LoopResult
deriving DecidableEq

/-- One run of `load()` from the point the claims concern. `aborted` models any
fetch of the standings/races/season-results phase throwing, which jumps to the
catch before any write site. On a cache hit the run only publishes state. With
no missing round the run writes `mergedRaces` once; otherwise it starts the
background retry IIFE, whose writes are the run's writes. -/
def seasonLoad (net : Net) (fuel : Nat) (aborted : Bool) (cached : Option (List Race))
    (sortedByRound : List Race) (resultsMap : String → List Nat) : SeasonRun :=
  if aborted then ⟨[], none⟩
  else
    match cached with
    | some _ => ⟨[], none⟩
    | none =>
      let merged := mergeRaces sortedByRound resultsMap
      let missing := (merged.filter (fun r => !hasResults r)).map (fun r => r.round)
      if missing.isEmpty then ⟨[merged], none⟩
      else
        let bg := reconcileLoop net fuel merged 0
        ⟨bg.writes, some bg⟩

end SeasonResultsPage

namespace PitstopsPage

/-- `durationToSeconds(duration)` of the Pitstops page. `none` is the `null`
return. A missing (`undefined`) and an empty duration both fail the
`if (!duration)` / `if (!trimmed)` truthiness guards. -/
def durationToSeconds (duration : Option String) : Option ℚ :=
  match duration with
  | none => none
  | some d =>
    let trimmed := jsTrimChars d.toList
    if trimmed.isEmpty then none
    else if trimmed.contains ':' then
      let nums := (splitOnColon trimmed).map jsNumberChars
      if nums.any Option.isNone then none
      else if nums.length = 2 then
        match nums with
        | [some m, some s] => some (m * 60 + s)
        | _ => none
      else jsParseFloatChars trimmed
    else jsParseFloatChars trimmed

/-- One raw pit stop row as the per-stop fold of `loadPitstopStats` reads it
(`stop?.duration ?? stop?.Duration` is the collapsed duration field). -/
structure PitStop where
  duration : Option String
  driverId : Option String
  lap : Option String
  stopNo : Option String

/-- The `PitStopStat` record the fold builds for a parseable stop. -/
structure PitStopStat where
  season : String
  round : String
  raceName : String
  driverId : String
  lap : String
  stopNo : String
  durationStr : String
  durationSeconds : ℚ
deriving DecidableEq

/-- The accumulator of the per-stop fold: the running fastest/slowest stat and
the per-driver stop counts and duration sums feeding the averages. -/
structure PitFoldState where
  fastest : Option PitStopStat
  slowest : Option PitStopStat
  stopsByDriver : List (String × Nat)
  durationByDriver : List (String × ℚ)
deriving DecidableEq

/-- The body of `raceStops.forEach(stop => ...)`: a stop whose duration fails
to parse returns early and touches nothing; otherwise the stat record is built
and the extremes (strict comparisons, first seen wins ties) and per-driver
accumulators are updated. -/
def foldStop (season round raceName : String) (st : PitFoldState) (stop : PitStop) :
    PitFoldState :=
  match durationToSeconds stop.duration with
  | none => st
  | some d =>
    let stat : PitStopStat :=
      { season, round, raceName
        driverId := stop.driverId.getD "unknown"
        lap := stop.lap.getD ""
        stopNo := stop.stopNo.getD ""
        durationStr := stop.duration.getD ""
        durationSeconds := d }
    let fastest := match st.fastest with
      | none => some stat
      | some f => if d < f.durationSeconds then some stat else some f
    let slowest := match st.slowest with
      | none => some stat
      | some s => if s.durationSeconds < d then some stat else some s
    { fastest, slowest
      stopsByDriver := recordUpdate st.stopsByDriver stat.driverId 0 (fun c => c + 1)
      durationByDriver := recordUpdate st.durationByDriver stat.driverId 0 (fun t => t + d) }

end PitstopsPage

namespace DriverStatsPage

/-!
`fetchDriverCareerStats`: the pure fold over the paginated results and
qualifying race lists (the function's network and cache plumbing reuses
`fetchPaginatedRaces` above; the claims concern the fold).
-/

/-- The fields of a `Results[0]` row the fold reads. `constructorId`/
`constructorName` are `result?.Constructor?.constructorId` and
`result?.Constructor?.name`. -/
structure ResultEntry where
  position : Option String
  points : Option String
  constructorId : Option String
  constructorName : Option String

/-- A race of the paginated `/results` list: `race?.season`, `race?.round` and
the `Results` array (of which the fold uses only the first element). -/
structure RaceRecord where
  season : Option String
  round : Option String
  results : List ResultEntry

structure QualiEntry where
  position : Option String

structure QualiRace where
  qualifyingResults : List QualiEntry

structure ConstructorBreakdown where
  constructorId : String
  name : String
  races : Nat
  wins : Nat
  points : ℚ
  firstSeason : ℚ
  firstRound : ℚ
deriving DecidableEq

structure DriverCareerStats where
  racesStarted : Nat
  wins : Nat
  poles : Nat
  seasons : Nat
  avgFinish : Option ℚ
  avgQualifying : Option ℚ
  pointsBySeason : List (String × ℚ)
  constructorBreakdown : List ConstructorBreakdown
deriving DecidableEq

/-- `Number.MAX_SAFE_INTEGER`, the rank given to unparseable seasons/rounds. -/
def maxSafeInteger : ℚ := 9007199254740991

/-- `parseFloat(result.points ?? '0') || 0`: an unparseable points string
contributes 0. -/
def ptsOf (r : ResultEntry) : ℚ :=
  (jsParseFloatChars (r.points.getD "0").toList).getD 0

structure CareerAcc where
  pointsBySeason : List (String × ℚ)
  wins : Nat
  finishPosSum : ℚ
  finishPosCount : Nat
  constructorMap : List (String × ConstructorBreakdown)

/-- The body of `for (const race of resultsRaces)`: skip a race without a
first result row; accumulate points into the season keyed record when the
season string is truthy; count a win on `position === '1'`; add finite
`Number(position)` values to the average-finish sums; and maintain the
per-constructor breakdown with its first-appearance (season, round) ranks. -/
def careerStep (acc : CareerAcc) (race : RaceRecord) : CareerAcc :=
  match race.results.head? with
  | none => acc
  | some result =>
    let seasonRank := (jsNumberOpt race.season).getD maxSafeInteger
    let roundRank := (jsNumberOpt race.round).getD maxSafeInteger
    let acc := match race.season with
      | some s =>
        if s = "" then acc
        else { acc with pointsBySeason := recordUpdate acc.pointsBySeason s 0 (fun p => p + ptsOf result) }
      | none => acc
    let acc := if result.position = some "1" then { acc with wins := acc.wins + 1 } else acc
    let acc := match jsNumberOpt result.position with
      | some fp => { acc with finishPosSum := acc.finishPosSum + fp,
                              finishPosCount := acc.finishPosCount + 1 }
      | none => acc
    let cid := (result.constructorId.getD (result.constructorName.getD "unknown"))
    let cname := result.constructorName.getD cid
    let cmap : List (String × ConstructorBreakdown) :=
      match recordLookup acc.constructorMap cid with
      | none =>
        acc.constructorMap ++ [(cid, (⟨cid, cname, 0, 0, 0, seasonRank, roundRank⟩ : ConstructorBreakdown))]
      | some existing =>
        if seasonRank < existing.firstSeason ∨
            (seasonRank = existing.firstSeason ∧ roundRank < existing.firstRound) then
          acc.constructorMap.map (fun p =>
            if p.1 == cid then (p.1, { p.2 with firstSeason := seasonRank, firstRound := roundRank })
            else p)
        else acc.constructorMap
    let cmap := cmap.map (fun p =>
      if p.1 == cid then
        (p.1, { p.2 with races := p.2.races + 1,
                         points := p.2.points + ptsOf result,
                         wins := if result.position = some "1" then p.2.wins + 1 else p.2.wins })
      else p)
    { acc with constructorMap := cmap }

structure QualiAcc where
  poles : Nat
  qualiPosSum : ℚ
  qualiPosCount : Nat

/-- The body of `for (const race of qualifyingRaces)`. -/
def qualiStep (acc : QualiAcc) (race : QualiRace) : QualiAcc :=
  match race.qualifyingResults.head? with
  | none => acc
  | some quali =>
    let acc := if quali.position = some "1" then { acc with poles := acc.poles + 1 } else acc
    match jsNumberOpt quali.position with
    | some qp => { acc with qualiPosSum := acc.qualiPosSum + qp,
                            qualiPosCount := acc.qualiPosCount + 1 }
    | none => acc

/-- The JavaScript comparator `(a, b) => a.firstSeason - b.firstSeason ||
a.firstRound - b.firstRound` as a total preorder for the stable sort. -/
def breakdownLe (a b : ConstructorBreakdown) : Bool :=
  if a.firstSeason = b.firstSeason then decide (a.firstRound ≤ b.firstRound)
  else decide (a.firstSeason ≤ b.firstSeason)

/-- The stats record `fetchDriverCareerStats` assembles from the two folds. -/
def fetchDriverCareerStatsFold (resultsRaces : List RaceRecord)
    (qualifyingRaces : List QualiRace) : DriverCareerStats :=
  let acc := resultsRaces.foldl careerStep ⟨[], 0, 0, 0, []⟩
  let qacc := qualifyingRaces.foldl qualiStep ⟨0, 0, 0⟩
  { racesStarted := resultsRaces.length
    wins := acc.wins
    poles := qacc.poles
    seasons := acc.pointsBySeason.length
    avgFinish :=
      if 0 < acc.finishPosCount then some (acc.finishPosSum / acc.finishPosCount) else none
    avgQualifying :=
      if 0 < qacc.qualiPosCount then some (qacc.qualiPosSum / qacc.qualiPosCount) else none
    pointsBySeason := acc.pointsBySeason
    constructorBreakdown := (acc.constructorMap.map (fun p => p.2)).mergeSort breakdownLe }

end DriverStatsPage

namespace DriverStatsPage

/-!
`fetchActiveDriverIds` (DriverStats.tsx): the "current"/"active driver" cache.
The sessionStorage payload is typed; a corrupt or shape-invalid JSON string is
modelled by the cache answering `none` (the code treats it as a miss).
Crucially, the stored payload carries no time tag of any kind.
-/

/-- The JSON payload stored under `active_driver_ids_<season>`:
`{ ids, constructors }` — and nothing else, in particular no day stamp. -/
structure ActiveCached where
  ids : List String
  constructors : List (String × String)
deriving DecidableEq

/-- The `ActiveLookup` value the function returns (`Set` modelled as the
deduplicated insertion-ordered list). -/
structure ActiveLookup where
  ids : List String
  constructorByDriver : List (String × String)
deriving DecidableEq

inductive ActiveErr where
  | fetchFailed : ActiveErr
  | noRecentResults : ActiveErr
deriving DecidableEq

structure ActiveRun where
  result : Except ActiveErr ActiveLookup
  requests : Nat
  writes : List (String × ActiveCached)
deriving DecidableEq

/-- `Array.from(new Set(ids))`: first occurrence kept, order preserved. -/
def dedupFirstGo (seen : List String) : List String → List String
  | [] => []
  | x :: xs =>
    if seen.contains x then dedupFirstGo seen xs
    else x :: dedupFirstGo (x :: seen) xs

def dedupFirst (l : List String) : List String := dedupFirstGo [] l

/-- One upstream race's `Results` rows, reduced to the fields the function
reads: `(r?.Driver?.driverId, r?.Constructor?.name)`, with `none` covering a
missing or empty (falsy) field. -/
def ActiveEntry : Type := Option String × Option String

/-- The `for (const season of seasonsToTry)` loop. Per season: a cache hit
returns at once with no request; otherwise one `/:season/last/results.json`
fetch (`none` = the fetch threw, which propagates), an empty race list moves on
to the next season, and a non-empty one builds, caches and returns the lookup. -/
def fetchActiveDriverIdsGo (cache : String → Option ActiveCached)
    (upstream : String → Option (List (List ActiveEntry))) :
    List String → Nat → List (String × ActiveCached) → ActiveRun
  | [], reqs, writes => ⟨.error .noRecentResults, reqs, writes⟩
  | season :: rest, reqs, writes =>
    let key := "active_driver_ids_" ++ season
    match cache key with
    | some parsed => ⟨.ok ⟨parsed.ids, parsed.constructors⟩, reqs, writes⟩
    | none =>
      match upstream season with
      | none => ⟨.error .fetchFailed, reqs + 1, writes⟩
      | some races =>
        if races.isEmpty then fetchActiveDriverIdsGo cache upstream rest (reqs + 1) writes
        else
          let entries := races.headD []
          let constructors := entries.foldl (fun acc e =>
            match e.1, e.2 with
            | some i, some n => recordUpdate acc i n (fun _ => n)
            | _, _ => acc) []
          let ids := entries.filterMap (fun e => e.1)
          let unique := dedupFirst ids
          ⟨.ok ⟨unique, constructors⟩, reqs + 1, writes ++ [(key, ⟨unique, constructors⟩)]⟩

/-- `fetchActiveDriverIds()`: `seasonsToTry = ['current', String(currentYear - 1)]`
with `currentYear = new Date().getFullYear()`. -/
def fetchActiveDriverIds (nowYear : Nat) (cache : String → Option ActiveCached)
    (upstream : String → Option (List (List ActiveEntry))) : ActiveRun :=
  fetchActiveDriverIdsGo cache upstream ["current", toString (nowYear - 1)] 0 []

/-- The same run as the browser performs it on a given date: the source reads
only `getFullYear()` of `new Date()` — the day of the date is never consulted. -/
def fetchActiveDriverIdsAt (d : JsDate) (cache : String → Option ActiveCached)
    (upstream : String → Option (List (List ActiveEntry))) : ActiveRun :=
  fetchActiveDriverIds d.year cache upstream

end DriverStatsPage

namespace ConstructorStatsPage

/-- The cached payload of `fetchConstructorMetrics`:
`{ year: currentYear, metrics }` — tagged with the calendar year of the write,
not with its day. -/
structure CachedMetrics (M : Type) where
  year : Nat
  metrics : M

/-- The cache-read gate of `fetchConstructorMetrics` (ConstructorStats.tsx
lines 103-116): a parsed entry is served iff its stored year equals
`new Date().getFullYear()` at read time; otherwise the read falls through to a
fresh fetch. `none` input covers both a missing and an unparseable entry. -/
def constructorMetricsCacheRead {M : Type} (currentYear : Nat)
    (cached : Option (CachedMetrics M)) : Option M :=
  match cached with
  | some parsed => if parsed.year = currentYear then some parsed.metrics else none
  | none => none

end ConstructorStatsPage

/-!
Backoff schedule sums: `triFrom a r` is the wait a fetcher accumulates doing
`r` more back-offs after attempt `a`, in units of the base delay:
`(a+1) + (a+2) + ... + (a+r)`.
-/

def triFrom (a : Nat) : Nat → Nat
  | 0 => 0
  | r + 1 => (a + 1) + triFrom (a + 1) r

def tri (n : Nat) : Nat := triFrom 0 n

theorem triFrom_two_mul (r : Nat) : ∀ a, 2 * triFrom a r = r * (2 * a + r + 1) := by
  induction r with
  | zero => intro a; simp [triFrom]
  | succ k ih =>
    intro a
    rw [triFrom, Nat.mul_add, ih (a + 1)]
    ring

theorem tri_eq_div (n : Nat) : tri n = n * (n + 1) / 2 := by
  have h : 2 * triFrom 0 n = n * (2 * 0 + n + 1) := triFrom_two_mul n 0
  have h2 : n * (2 * 0 + n + 1) = n * (n + 1) := by ring
  rw [h2] at h
  unfold tri
  generalize hm : n * (n + 1) = m at h
  omega

/-!
Closed forms of the fetcher runs on an upstream that always throttles, and the
5xx/429 policy comparisons.
-/

theorem driverBackoffGo_allThrottled {α : Type} (j : α) (D : Nat) :
    ∀ rem attempt slept,
      DriverStatsPage.fetchJsonWithBackoffGo (fun _ => ⟨429, j⟩) D rem attempt slept
        = ⟨.error .repeatedlyRateLimited, attempt + rem, slept + D * triFrom attempt rem⟩ := by
  intro rem
  induction rem with
  | zero =>
    intro attempt slept
    simp [DriverStatsPage.fetchJsonWithBackoffGo, triFrom]
  | succ k ih =>
    intro attempt slept
    rw [DriverStatsPage.fetchJsonWithBackoffGo]
    simp only [reduceIte]
    rw [ih (attempt + 1) (slept + D * (attempt + 1))]
    have hreq : attempt + 1 + k = attempt + (k + 1) := by omega
    have hslept : slept + D * (attempt + 1) + D * triFrom (attempt + 1) k
        = slept + D * triFrom attempt (k + 1) := by
      rw [triFrom]
      ring
    rw [hreq, hslept]

theorem pitBackoffGo_allThrottled {α : Type} (s R D : Nat) (hs : s = 429 ∨ 500 ≤ s) :
    ∀ rem attempt slept, attempt + rem = R + 1 → attempt ≤ R →
      PitstopsPage.fetchJsonWithBackoffGo (fun _ => (⟨s, none⟩ : PitstopsPage.HttpResp α))
          R D rem attempt slept
        = ⟨.error .throttledOrServer, R + 1, slept + D * triFrom attempt (R - attempt)⟩ := by
  intro rem
  induction rem with
  | zero => intro attempt slept h1 h2; omega
  | succ k ih =>
    intro attempt slept h1 h2
    rw [PitstopsPage.fetchJsonWithBackoffGo]
    have hcond : ((s = 429 : Bool) || (500 ≤ s : Bool)) = true := by
      rcases hs with h | h <;> simp [h]
    simp only [hcond, if_true]
    by_cases hR : attempt = R
    · subst hR
      simp only [if_pos rfl]
      have : attempt - attempt = 0 := by omega
      simp [this, triFrom]
    · simp only [if_neg hR]
      rw [ih (attempt + 1) (slept + D * (attempt + 1)) (by omega) (by omega)]
      have hslept : slept + D * (attempt + 1) + D * triFrom (attempt + 1) (R - (attempt + 1))
          = slept + D * triFrom attempt (R - attempt) := by
        have hsplit : R - attempt = (R - (attempt + 1)) + 1 := by omega
        rw [hsplit, triFrom]
        ring
      rw [hslept]

theorem seasonRetryGo_allThrottled {α : Type} (s R D : Nat) (hs : s = 429 ∨ 500 ≤ s) :
    ∀ rem attempt slept, attempt + rem = R + 1 → attempt ≤ R →
      SeasonResultsPage.fetchJsonWithRetryGo
          (fun _ => (⟨s, none, false⟩ : SeasonResultsPage.HttpResp α)) R D rem attempt slept
        = ⟨.error .throttledOrServer, R + 1, slept + D * triFrom attempt (R - attempt)⟩ := by
  intro rem
  induction rem with
  | zero => intro attempt slept h1 h2; omega
  | succ k ih =>
    intro attempt slept h1 h2
    rw [SeasonResultsPage.fetchJsonWithRetryGo]
    have hcond : (((s = 429 : Bool) || ((none : Option α).isSome && false)) || (500 ≤ s : Bool))
        = true := by
      rcases hs with h | h <;> simp [h]
    simp only [hcond, Bool.not_true, Bool.false_eq_true, if_false]
    by_cases hR : attempt = R
    · subst hR
      simp only [if_pos rfl]
      have h0 : attempt - attempt = 0 := by omega
      simp [h0, triFrom]
    · simp only [if_neg hR]
      rw [ih (attempt + 1) (slept + D * (attempt + 1)) (by omega) (by omega)]
      have hslept : slept + D * (attempt + 1) + D * triFrom (attempt + 1) (R - (attempt + 1))
          = slept + D * triFrom attempt (R - attempt) := by
        have hsplit : R - attempt = (R - (attempt + 1)) + 1 := by omega
        rw [hsplit, triFrom]
        ring
      rw [hslept]

theorem triFrom_zero_eq_div (n : Nat) : triFrom 0 n = n * (n + 1) / 2 := by
  have h : tri n = n * (n + 1) / 2 := tri_eq_div n
  exact h

/-- C4: the claim says a non-2xx status that is neither 429 nor 5xx makes the
resilient fetcher fail after exactly one request with no retry and no wait.
Evaluating the three cited fetchers on an upstream that always answers 404:
`fetchJsonWithRetry` (its defaults retries = 3, backoffMs = 800) issues 4
requests and sleeps 4800 ms, the Pitstops `fetchJsonWithBackoff` (defaults 6,
800) issues 7 requests and sleeps 16800 ms — both catch their own client-error
throw and retry it — and only DriverStats.tsx's `fetchJsonWithBackoff` fails
after exactly one request with no wait. -/
theorem C4_client_error_retried :
    SeasonResultsPage.fetchJsonWithRetry
        (fun _ => (⟨404, none, false⟩ : SeasonResultsPage.HttpResp Unit)) 3 800
      = ⟨.error (.statusFailure 404), 4, 4800⟩
  ∧ PitstopsPage.fetchJsonWithBackoff
        (fun _ => (⟨404, none⟩ : PitstopsPage.HttpResp Unit)) 6 800
      = ⟨.error (.requestFailedStatus 404), 7, 16800⟩
  ∧ DriverStatsPage.fetchJsonWithBackoff (fun _ => ⟨404, ()⟩) 6 600
      = ⟨.error .requestFailed, 1, 0⟩ := by
  refine ⟨by decide, by decide, by decide⟩

/-- C5 counterexample: DriverStats.tsx's `fetchJsonWithBackoff` (as called:
ceiling 6, base delay 600) does not apply the 429 backoff-and-retry policy to
HTTP 5xx: on an always-500 upstream it throws `Request failed` after exactly
one request with zero wait, while on an always-429 upstream it retries through
6 attempts and 12600 ms of waits. -/
theorem C5_counterexample_driverstats_500 :
    DriverStatsPage.fetchJsonWithBackoff (fun _ => ⟨500, ()⟩) 6 600
      = ⟨.error .requestFailed, 1, 0⟩
  ∧ DriverStatsPage.fetchJsonWithBackoff (fun _ => ⟨429, ()⟩) 6 600
      = ⟨.error .repeatedlyRateLimited, 6, 12600⟩
  ∧ ((DriverStatsPage.fetchJsonWithBackoff (fun _ => ⟨500, ()⟩) 6 600).requests == 6)
      = false := by
  refine ⟨by decide, by decide, by decide⟩

/-- C5 amended: the Pitstops page's `fetchJsonWithBackoff` and the
SeasonResults page's `fetchJsonWithRetry` treat an HTTP 5xx response exactly
like a 429 — the whole run (outcome, request count, wait schedule) coincides
with the always-429 run, retrying up to the ceiling with waits
`D*(attempt+1)` — whereas DriverStats.tsx's `fetchJsonWithBackoff` retries only
429 and fails with its client-error throw after exactly one request on a 5xx. -/
theorem C5_fivexx_policy_by_variant : ∀ (N D : Nat),
    PitstopsPage.fetchJsonWithBackoff
        (fun _ => (⟨500, none⟩ : PitstopsPage.HttpResp Unit)) N D
      = PitstopsPage.fetchJsonWithBackoff
          (fun _ => (⟨429, none⟩ : PitstopsPage.HttpResp Unit)) N D
  ∧ SeasonResultsPage.fetchJsonWithRetry
        (fun _ => (⟨500, none, false⟩ : SeasonResultsPage.HttpResp Unit)) N D
      = SeasonResultsPage.fetchJsonWithRetry
          (fun _ => (⟨429, none, false⟩ : SeasonResultsPage.HttpResp Unit)) N D
  ∧ PitstopsPage.fetchJsonWithBackoff
        (fun _ => (⟨500, none⟩ : PitstopsPage.HttpResp Unit)) N D
      = ⟨.error .throttledOrServer, N + 1, D * (N * (N + 1) / 2)⟩
  ∧ DriverStatsPage.fetchJsonWithBackoff (fun _ => ⟨500, ()⟩) (N + 1) D
      = ⟨.error .requestFailed, 1, 0⟩ := by
  intro N D
  have h500 := @pitBackoffGo_allThrottled Unit 500 N D (Or.inr (by omega))
      (N + 1) 0 0 (by omega) (by omega)
  have h429 := @pitBackoffGo_allThrottled Unit 429 N D (Or.inl rfl)
      (N + 1) 0 0 (by omega) (by omega)
  have hseason500 := @seasonRetryGo_allThrottled Unit 500 N D (Or.inr (by omega))
      (N + 1) 0 0 (by omega) (by omega)
  have hseason429 := @seasonRetryGo_allThrottled Unit 429 N D (Or.inl rfl)
      (N + 1) 0 0 (by omega) (by omega)
  refine ⟨?_, ?_, ?_, ?_⟩
  · unfold PitstopsPage.fetchJsonWithBackoff
    rw [h500, h429]
  · unfold SeasonResultsPage.fetchJsonWithRetry
    rw [hseason500, hseason429]
  · unfold PitstopsPage.fetchJsonWithBackoff
    rw [h500]
    simp [triFrom_zero_eq_div]
  · unfold DriverStatsPage.fetchJsonWithBackoff
    rw [DriverStatsPage.fetchJsonWithBackoffGo]
    simp [resOk]

/-- C6 counterexample: the Pitstops page's `fetchJsonWithBackoff` configured
with retry ceiling 1 and base delay 600, against an always-429 upstream,
performs 2 attempts (first attempt, one backoff wait of 600 ms, final
attempt), not the exactly-1 the claim predicts for a ceiling of 1. -/
theorem C6_counterexample_pitstops_attempts :
    PitstopsPage.fetchJsonWithBackoff
        (fun _ => (⟨429, none⟩ : PitstopsPage.HttpResp Unit)) 1 600
      = ⟨.error .throttledOrServer, 2, 600⟩
  ∧ ((PitstopsPage.fetchJsonWithBackoff
        (fun _ => (⟨429, none⟩ : PitstopsPage.HttpResp Unit)) 1 600).requests == 1)
      = false := by
  refine ⟨by decide, by decide⟩

/-- C6 amended: against an always-429 upstream, DriverStats.tsx's
`fetchJsonWithBackoff` with ceiling N and base delay D performs exactly N
attempts, waits D, 2D, ..., ND (total D*N*(N+1)/2) and fails with its
`Request repeatedly rate-limited` throw; the Pitstops page's variant with
retries parameter N performs N+1 attempts with the same total wait
D*N*(N+1)/2 (it does not sleep after its final attempt) and fails with its
`Throttled or server error` throw. -/
theorem C6_backoff_attempts_and_wait : ∀ (N D : Nat),
    DriverStatsPage.fetchJsonWithBackoff (fun _ => ⟨429, ()⟩) N D
      = ⟨.error .repeatedlyRateLimited, N, D * (N * (N + 1) / 2)⟩
  ∧ PitstopsPage.fetchJsonWithBackoff
        (fun _ => (⟨429, none⟩ : PitstopsPage.HttpResp Unit)) N D
      = ⟨.error .throttledOrServer, N + 1, D * (N * (N + 1) / 2)⟩ := by
  intro N D
  constructor
  · unfold DriverStatsPage.fetchJsonWithBackoff
    rw [driverBackoffGo_allThrottled () D N 0 0]
    simp [triFrom_zero_eq_div]
  · unfold PitstopsPage.fetchJsonWithBackoff
    rw [@pitBackoffGo_allThrottled Unit 429 N D (Or.inl rfl) (N + 1) 0 0
      (by omega) (by omega)]
    simp [triFrom_zero_eq_div]

/-!
The pagination claim: closed form of the offset loop against `mockUpstream`.
-/

theorem mock_chunk {α : Type} (items : Nat → α) (L T s : Nat) (hs : s < T) :
    ((List.range (min L (T - s))).map (fun i => items (s + i)))
      ++ (List.range' (s + L) (T - (s + L))).map items
      = (List.range' s (T - s)).map items := by
  have h1 : (List.range (min L (T - s))).map (fun i => items (s + i))
      = (List.range' s (min L (T - s))).map items := by
    have h3 := List.map_add_range' s 0 (min L (T - s)) 1
    rw [← List.range_eq_range'] at h3
    simp only [Nat.add_zero] at h3
    rw [← h3, List.map_map]
    rfl
  rw [h1]
  rcases le_or_lt (T - s) L with h | h
  · have hT : T - (s + L) = 0 := by omega
    have hmin : min L (T - s) = T - s := by omega
    simp [hT, hmin]
  · have hmin : min L (T - s) = L := by omega
    rw [hmin, ← List.map_append, List.range'_append_1]
    have h4 : T - (s + L) + L = T - s := by omega
    rw [h4]

theorem div_step (L x : Nat) (hL : 0 < L) (hx : 1 ≤ x) :
    1 + (x - L + L - 1) / L = (x + L - 1) / L := by
  rcases le_or_lt L x with h | h
  · have e1 : x - L + L - 1 = x - 1 := by omega
    have e2 : x + L - 1 = (x - 1) + L := by omega
    rw [e1, e2, Nat.add_div_right _ hL]
    omega
  · have e1 : x - L + L - 1 = L - 1 := by omega
    have e2 : x + L - 1 = (x - 1) + L := by omega
    have d1 : (L - 1) / L = 0 := Nat.div_eq_of_lt (by omega)
    have d2 : (x - 1) / L = 0 := Nat.div_eq_of_lt (by omega)
    rw [e1, e2, Nat.add_div_right _ hL, d1, d2]

theorem paginate_mock_stop {α : Type} (items : Nat → α) (L T k fuel reqs : Nat)
    (acc : List α) (hL : 0 < L) (hk : 0 < k) (hT : T ≤ k * L) :
    paginateOffsetLoop (mockUpstream L T items) L (fuel + 1) (k * L) (some T) acc reqs
      = some (acc ++ (List.range' (k * L) (T - k * L)).map items,
              reqs + (T - k * L + L - 1) / L) := by
  have hpos : 0 < k * L := Nat.mul_pos hk hL
  rw [paginateOffsetLoop]
  simp only [Option.getD_some]
  rw [if_neg (by omega)]
  have hsub : T - k * L = 0 := by omega
  rw [hsub]
  have hdiv : (0 + L - 1) / L = 0 := Nat.div_eq_of_lt (by omega)
  rw [hdiv]
  simp

theorem paginate_mock_go {α : Type} (items : Nat → α) (L T : Nat) (hL : 0 < L) :
    ∀ fuel k reqs (acc : List α), 0 < k → T ≤ k * L + fuel * L →
      paginateOffsetLoop (mockUpstream L T items) L (fuel + 1) (k * L) (some T) acc reqs
        = some (acc ++ (List.range' (k * L) (T - k * L)).map items,
                reqs + (T - k * L + L - 1) / L) := by
  intro fuel
  induction fuel with
  | zero =>
    intro k reqs acc hk hT
    exact paginate_mock_stop items L T k 0 reqs acc hL hk (by omega)
  | succ f ih =>
    intro k reqs acc hk hT
    rcases le_or_lt T (k * L) with hstop | hlt
    · exact paginate_mock_stop items L T k (f + 1) reqs acc hL hk hstop
    · rw [paginateOffsetLoop]
      simp only [Option.getD_some]
      rw [if_pos (Or.inr hlt)]
      simp only [mockUpstream]
      have hmul : k * L + L = (k + 1) * L := by ring
      rw [hmul]
      have hfuel : T ≤ (k + 1) * L + f * L := by
        have h1 : (k + 1) * L + f * L = k * L + (f + 1) * L := by ring
        omega
      rw [ih (k + 1) (reqs + 1)
        (acc ++ (List.range (min L (T - k * L))).map (fun i => items (k * L + i)))
        (by omega) hfuel]
      have hback : (k + 1) * L = k * L + L := by ring
      have hlist : (acc ++ (List.range (min L (T - k * L))).map (fun i => items (k * L + i)))
            ++ (List.range' ((k + 1) * L) (T - (k + 1) * L)).map items
          = acc ++ (List.range' (k * L) (T - k * L)).map items := by
        rw [List.append_assoc, hback, mock_chunk items L T (k * L) hlt]
      have hcount : reqs + 1 + (T - (k + 1) * L + L - 1) / L
          = reqs + (T - k * L + L - 1) / L := by
        have hx : 1 ≤ T - k * L := by omega
        have hsub : T - (k + 1) * L = (T - k * L) - L := by omega
        rw [hsub, Nat.add_assoc, div_step L (T - k * L) hL hx]
      rw [hlist, hcount]

theorem paginate_mock_closed {α : Type} (items : Nat → α) (L T : Nat) (hL : 0 < L) :
    paginateOffsetLoop (mockUpstream L T items) L (T / L + 2) 0 none [] 0
      = some ((List.range T).map items, if T = 0 then 1 else (T + L - 1) / L) := by
  rw [show T / L + 2 = (T / L + 1) + 1 from rfl, paginateOffsetLoop]
  rw [if_pos (Or.inl rfl)]
  simp only [mockUpstream, Nat.sub_zero]
  rw [Nat.zero_add L]
  rcases Nat.eq_zero_or_pos T with hT0 | hTpos
  · subst hT0
    have h1 : min L 0 = 0 := by omega
    rw [h1]
    simp only [List.range_zero, List.map_nil, List.append_nil]
    have h2 := paginate_mock_stop items L 0 1 (0 / L) 1 [] hL (by omega) (by omega)
    rw [Nat.one_mul] at h2
    rw [h2]
    have h3 : (0 : Nat) - L = 0 := by omega
    rw [h3]
    have h4 : (0 + L - 1) / L = 0 := Nat.div_eq_of_lt (by omega)
    rw [h4]
    simp
  · have hdm := Nat.div_add_mod T L
    have hmlt : T % L < L := Nat.mod_lt T hL
    have hcomm : T / L * L = L * (T / L) := by ring
    have hfuel : T ≤ 1 * L + (T / L) * L := by omega
    have h2 := paginate_mock_go items L T hL (T / L) 1 1
      ([] ++ (List.range (min L T)).map (fun i => items (0 + i))) (by omega) hfuel
    rw [Nat.one_mul] at h2
    rw [h2]
    have hchunk := mock_chunk items L T 0 hTpos
    rw [Nat.sub_zero, Nat.zero_add L] at hchunk
    have hlist : ([] ++ (List.range (min L T)).map (fun i => items (0 + i)))
          ++ (List.range' L (T - L)).map items
        = (List.range T).map items := by
      simp only [List.nil_append]
      rw [hchunk, ← List.range_eq_range']
    have hcount : 1 + (T - L + L - 1) / L = (T + L - 1) / L :=
      div_step L T hL hTpos
    rw [hlist, hcount, if_neg (by omega)]

/-- C3: against a mocked upstream that reports the same total T on every page
and returns `min(L, T - offset)` items at each offset, the offset/limit loop
terminates and issues exactly ⌈T/L⌉ = (T+L-1)/L requests when T > 0 and
exactly one request when T = 0 (returning the empty collection, not an error),
and the concatenated result is exactly the T upstream items in page order;
in particular `fetchPaginatedRaces` and `fetchConstructorResultsPaginated`
(page size 100) behave this way. -/
theorem C3_pagination_completeness {α : Type} (L T : Nat) (hL : 0 < L)
    (items : Nat → α) :
    paginateOffsetLoop (mockUpstream L T items) L (T / L + 2) 0 none [] 0
      = some ((List.range T).map items, if T = 0 then 1 else (T + L - 1) / L)
  ∧ DriverStatsPage.fetchPaginatedRaces (mockUpstream 100 T items) (T / 100 + 2)
      = some ((List.range T).map items, if T = 0 then 1 else (T + 99) / 100)
  ∧ ConstructorStatsPage.fetchConstructorResultsPaginated
        (mockUpstream 100 T items) (T / 100 + 2)
      = some ((List.range T).map items, if T = 0 then 1 else (T + 99) / 100) := by
  refine ⟨paginate_mock_closed items L T hL, ?_, ?_⟩
  · unfold DriverStatsPage.fetchPaginatedRaces
    exact paginate_mock_closed items 100 T (by omega)
  · unfold ConstructorStatsPage.fetchConstructorResultsPaginated
    exact paginate_mock_closed items 100 T (by omega)

/-- Witness for C3 at L = 3, T = 7, items i = i: the loop issues ⌈7/3⌉ = 3
requests and returns [0, 1, 2, 3, 4, 5, 6]. -/
theorem C3_pagination_completeness_witness :
    0 < 3
  ∧ (paginateOffsetLoop (mockUpstream 3 7 (fun i => i)) 3 (7 / 3 + 2) 0 none [] 0
      = some ((List.range 7).map (fun i => i), if 7 = 0 then 1 else (7 + 3 - 1) / 3)
  ∧ DriverStatsPage.fetchPaginatedRaces (mockUpstream 100 7 (fun i => i)) (7 / 100 + 2)
      = some ((List.range 7).map (fun i => i), if 7 = 0 then 1 else (7 + 99) / 100)
  ∧ ConstructorStatsPage.fetchConstructorResultsPaginated
        (mockUpstream 100 7 (fun i => i)) (7 / 100 + 2)
      = some ((List.range 7).map (fun i => i), if 7 = 0 then 1 else (7 + 99) / 100)) :=
  ⟨by decide, C3_pagination_completeness 3 7 (by decide) (fun i => i)⟩

/-!
The season cache-write invariant.
-/

theorem missing_empty_all (l : List SeasonResultsPage.Race)
    (h : ((l.filter (fun r => !SeasonResultsPage.hasResults r)).map
        (fun r => r.round)).isEmpty = true) :
    l.all SeasonResultsPage.hasResults = true := by
  induction l with
  | nil => rfl
  | cons r rest ih =>
    by_cases hr : SeasonResultsPage.hasResults r = true
    · simp only [List.filter_cons, hr, Bool.not_true] at h
      simp only [List.all_cons, hr, Bool.true_and]
      exact ih h
    · exfalso
      have hr' : (!SeasonResultsPage.hasResults r) = true := by
        simp [Bool.not_eq_true] at hr
        simp [hr]
      simp [List.filter_cons, hr'] at h

theorem reconcile_writes_invariant (net : SeasonResultsPage.Net) :
    ∀ fuel current n,
      ((SeasonResultsPage.reconcileLoop net fuel current n).writes.length ≤ 1)
    ∧ ((SeasonResultsPage.reconcileLoop net fuel current n).writes.all
          (fun w => w.all SeasonResultsPage.hasResults) = true) := by
  intro fuel
  induction fuel with
  | zero =>
    intro current n
    constructor <;> simp [SeasonResultsPage.reconcileLoop]
  | succ f ih =>
    intro current n
    rw [SeasonResultsPage.reconcileLoop]
    by_cases hmiss : (((SeasonResultsPage.sweepRounds net current n).1.filter
        (fun r => !SeasonResultsPage.hasResults r)).map (fun r => r.round)).isEmpty = true
    · simp only [hmiss, if_true]
      refine ⟨by simp, ?_⟩
      simp only [List.all_cons, List.all_nil, Bool.and_true]
      exact missing_empty_all _ hmiss
    · simp only [Bool.not_eq_true] at hmiss
      simp only [hmiss, Bool.false_eq_true, if_false]
      exact ih (SeasonResultsPage.sweepRounds net current n).1
        (SeasonResultsPage.sweepRounds net current n).2

/-- C1: in every run of the composite season fetch — the assembly of
`mergedRaces` plus, when rounds are missing, the background reconciliation
loop, over any network oracle, sweep horizon, cache state and assembled
inputs — the `seasonResults_<year>` cache entry is written at most once, and
every race list ever written has a non-empty Results array in every round. -/
theorem C1_season_cache_write_gating :
    ∀ (net : SeasonResultsPage.Net) (fuel : Nat) (aborted : Bool)
      (cached : Option (List SeasonResultsPage.Race))
      (sortedByRound : List SeasonResultsPage.Race)
      (resultsMap : String → List Nat),
      ((SeasonResultsPage.seasonLoad net fuel aborted cached sortedByRound resultsMap).writes.length ≤ 1)
    ∧ ((SeasonResultsPage.seasonLoad net fuel aborted cached sortedByRound resultsMap).writes.all
          (fun w => w.all SeasonResultsPage.hasResults) = true) := by
  intro net fuel aborted cached sortedByRound resultsMap
  unfold SeasonResultsPage.seasonLoad
  by_cases hab : aborted = true
  · simp [hab]
  · simp only [Bool.not_eq_true] at hab
    simp only [hab, Bool.false_eq_true, if_false]
    match cached with
    | some c => constructor <;> simp
    | none =>
      simp only
      by_cases hmiss : (((SeasonResultsPage.mergeRaces sortedByRound resultsMap).filter
          (fun r => !SeasonResultsPage.hasResults r)).map (fun r => r.round)).isEmpty = true
      · simp only [hmiss, if_true]
        refine ⟨by simp, ?_⟩
        simp only [List.all_cons, List.all_nil, Bool.and_true]
        exact missing_empty_all _ hmiss
      · simp only [Bool.not_eq_true] at hmiss
        simp only [hmiss, Bool.false_eq_true, if_false]
        exact reconcile_writes_invariant net fuel
          (SeasonResultsPage.mergeRaces sortedByRound resultsMap) 0

/-- C2: the background reconciliation loop of the SeasonResults load consults
no cancellation flag — its embedding takes no cancellation input because the
source reads none (every other effect in the repository uses a `cancelled`
flag in its `useEffect` cleanup; this IIFE has no cleanup at all). Evaluated
at a run whose view is torn down before the first sweep (season list with one
round, round 1 missing, the direct per-round fetch answering with full
results), the run still issues 1 network request, performs 3 shared-state
setter updates and writes the season cache entry — all attributable to the
run after its cancellation point, where the claim requires zero. -/
theorem C2_reconcile_ignores_cancellation :
    SeasonResultsPage.seasonLoad (fun _ => some ⟨some ⟨"1", [7]⟩, 1, 200⟩) 1 false none
        [⟨"1", []⟩] (fun _ => [])
      = ⟨[[⟨"1", [7]⟩]], some ⟨[⟨"1", [7]⟩], 1, [[⟨"1", [7]⟩]], 3, true⟩⟩ := by
  decide

/-- C7 counterexample: the active-driver cache entry carries no day tag (its
payload is just `{ ids, constructors }`), and a read on a later wall-clock day
of the same year is served from the cache with zero upstream requests —
identical to the same-day read — instead of being treated as absent; likewise
the year-tagged constructor-metrics entry survives any day change within the
year. -/
theorem C7_counterexample_day_change_served_from_cache :
    (DriverStatsPage.fetchActiveDriverIdsAt ⟨2025, 101⟩
        (fun k => if k = "active_driver_ids_current"
          then some ⟨["hamilton"], [("hamilton", "Mercedes")]⟩ else none)
        (fun _ => some [])
      = ⟨.ok ⟨["hamilton"], [("hamilton", "Mercedes")]⟩, 0, []⟩)
  ∧ (DriverStatsPage.fetchActiveDriverIdsAt ⟨2025, 100⟩
        (fun k => if k = "active_driver_ids_current"
          then some ⟨["hamilton"], [("hamilton", "Mercedes")]⟩ else none)
        (fun _ => some [])
      = DriverStatsPage.fetchActiveDriverIdsAt ⟨2025, 101⟩
        (fun k => if k = "active_driver_ids_current"
          then some ⟨["hamilton"], [("hamilton", "Mercedes")]⟩ else none)
        (fun _ => some []))
  ∧ ConstructorStatsPage.constructorMetricsCacheRead 2025 (some ⟨2025, (42 : Nat)⟩)
      = some 42 := by
  refine ⟨by decide, by decide, by decide⟩

/-- C7 amended: neither cited cache entry is tagged with the calendar day of
write. The active-driver lookup's behaviour depends on the date only through
`getFullYear()` — two reads on any two days of the same year behave
identically, so an entry written on day D is still served on day D+1 — and the
constructor-metrics entry is tagged with the calendar year: it is served for
any read in its write year and treated as absent exactly when the reading
year differs. -/
theorem C7_freshness_is_year_not_day :
    (∀ (d d' : JsModel.JsDate) (cache : String → Option DriverStatsPage.ActiveCached)
        (upstream : String → Option (List (List DriverStatsPage.ActiveEntry))),
        d.year = d'.year →
        DriverStatsPage.fetchActiveDriverIdsAt d cache upstream
          = DriverStatsPage.fetchActiveDriverIdsAt d' cache upstream)
  ∧ (∀ (y : Nat) (e : ConstructorStatsPage.CachedMetrics Nat),
        e.year = y →
        ConstructorStatsPage.constructorMetricsCacheRead y (some e) = some e.metrics)
  ∧ (∀ (y : Nat) (e : ConstructorStatsPage.CachedMetrics Nat),
        (e.year == y) = false →
        ConstructorStatsPage.constructorMetricsCacheRead y (some e) = none) := by
  refine ⟨?_, ?_, ?_⟩
  · intro d d' cache upstream h
    unfold DriverStatsPage.fetchActiveDriverIdsAt DriverStatsPage.fetchActiveDriverIds
    rw [h]
  · intro y e h
    unfold ConstructorStatsPage.constructorMetricsCacheRead
    simp [h]
  · intro y e h
    unfold ConstructorStatsPage.constructorMetricsCacheRead
    have h' : ¬ (e.year = y) := by
      intro hc
      rw [hc] at h
      simp at h
    simp [h']

/-- Witness for C7's amended statement at concrete inputs: days 100 and 101 of
2025 behave identically for the active-driver lookup; a metrics entry written
in 2025 is served on a 2025 read and treated as absent on a 2026 read. -/
theorem C7_freshness_is_year_not_day_witness :
    (⟨2025, 100⟩ : JsModel.JsDate).year = (⟨2025, 101⟩ : JsModel.JsDate).year
  ∧ (DriverStatsPage.fetchActiveDriverIdsAt ⟨2025, 100⟩ (fun _ => none) (fun _ => some [])
      = DriverStatsPage.fetchActiveDriverIdsAt ⟨2025, 101⟩ (fun _ => none) (fun _ => some []))
  ∧ ConstructorStatsPage.constructorMetricsCacheRead 2025 (some ⟨2025, (42 : Nat)⟩)
      = some 42
  ∧ ConstructorStatsPage.constructorMetricsCacheRead 2026 (some ⟨2025, (42 : Nat)⟩)
      = none :=
  ⟨rfl,
   C7_freshness_is_year_not_day.1 ⟨2025, 100⟩ ⟨2025, 101⟩
     (fun _ => none) (fun _ => some []) rfl,
   C7_freshness_is_year_not_day.2.1 2025 ⟨2025, 42⟩ rfl,
   C7_freshness_is_year_not_day.2.2 2026 ⟨2025, 42⟩ (by decide)⟩

/-- C8: the pit-stop duration parser maps "1:23.456" to 83.456 seconds and
"23.456" to 23.456 seconds; a missing or empty duration parses to `none`, and
the per-stop fold leaves its accumulator — extremes, per-driver stop counts
and duration sums (hence the fastest/slowest/average computations) — entirely
unchanged for such a stop, rather than counting it as 0. -/
theorem C8_duration_parsing_and_exclusion :
    PitstopsPage.durationToSeconds (some "1:23.456") = some (83.456 : ℚ)
  ∧ PitstopsPage.durationToSeconds (some "23.456") = some (23.456 : ℚ)
  ∧ PitstopsPage.durationToSeconds (some "") = none
  ∧ PitstopsPage.durationToSeconds none = none
  ∧ (∀ (season round raceName : String) (st : PitstopsPage.PitFoldState)
        (drv lap stp : Option String),
        PitstopsPage.foldStop season round raceName st ⟨none, drv, lap, stp⟩ = st
      ∧ PitstopsPage.foldStop season round raceName st ⟨some "", drv, lap, stp⟩ = st) := by
  refine ⟨?_, ?_, by decide, rfl, ?_⟩
  · simp +decide [PitstopsPage.durationToSeconds, splitOnColon, jsNumberChars,
      parseSignedAll, parseUnsignedAll, jsTrimChars, jsWs, isDigitC, intDigitsVal,
      fracDigitsVal, digChar, jsParseFloatChars, parseFloatUnsigned]
    norm_num
  · simp +decide [PitstopsPage.durationToSeconds, splitOnColon, jsNumberChars,
      parseSignedAll, parseUnsignedAll, jsTrimChars, jsWs, isDigitC, intDigitsVal,
      fracDigitsVal, digChar, jsParseFloatChars, parseFloatUnsigned]
    norm_num
  · intro season round raceName st drv lap stp
    have hnone : PitstopsPage.durationToSeconds none = none := rfl
    have hempty : PitstopsPage.durationToSeconds (some "") = none := by decide
    constructor
    · simp [PitstopsPage.foldStop, hnone]
    · simp [PitstopsPage.foldStop, hempty]

/-- C9: for a driver with three result rows carrying points 10, 0, 25 and
position strings "1", "DNF", "1" (one per race, same season), the career fold
yields wins = 2, total points 35 in the season map, racesStarted = 3, and an
average finishing position of 1.0 computed over only the two numeric
positions — the DNF row is excluded from the average-position denominator. -/
theorem C9_career_fold_example :
    (DriverStatsPage.fetchDriverCareerStatsFold
      [⟨some "2000", some "1", [⟨some "1", some "10", some "ferrari", some "Ferrari"⟩]⟩,
       ⟨some "2000", some "2", [⟨some "DNF", some "0", some "ferrari", some "Ferrari"⟩]⟩,
       ⟨some "2000", some "3", [⟨some "1", some "25", some "ferrari", some "Ferrari"⟩]⟩]
      []).wins = 2
  ∧ (DriverStatsPage.fetchDriverCareerStatsFold
      [⟨some "2000", some "1", [⟨some "1", some "10", some "ferrari", some "Ferrari"⟩]⟩,
       ⟨some "2000", some "2", [⟨some "DNF", some "0", some "ferrari", some "Ferrari"⟩]⟩,
       ⟨some "2000", some "3", [⟨some "1", some "25", some "ferrari", some "Ferrari"⟩]⟩]
      []).pointsBySeason = [("2000", (35 : ℚ))]
  ∧ (DriverStatsPage.fetchDriverCareerStatsFold
      [⟨some "2000", some "1", [⟨some "1", some "10", some "ferrari", some "Ferrari"⟩]⟩,
       ⟨some "2000", some "2", [⟨some "DNF", some "0", some "ferrari", some "Ferrari"⟩]⟩,
       ⟨some "2000", some "3", [⟨some "1", some "25", some "ferrari", some "Ferrari"⟩]⟩]
      []).racesStarted = 3
  ∧ (DriverStatsPage.fetchDriverCareerStatsFold
      [⟨some "2000", some "1", [⟨some "1", some "10", some "ferrari", some "Ferrari"⟩]⟩,
       ⟨some "2000", some "2", [⟨some "DNF", some "0", some "ferrari", some "Ferrari"⟩]⟩,
       ⟨some "2000", some "3", [⟨some "1", some "25", some "ferrari", some "Ferrari"⟩]⟩]
      []).avgFinish = some (1 : ℚ) := by
  refine ⟨?_, ?_, ?_, ?_⟩ <;>
  · simp +decide [DriverStatsPage.fetchDriverCareerStatsFold, DriverStatsPage.careerStep,
      DriverStatsPage.qualiStep, DriverStatsPage.ptsOf, DriverStatsPage.maxSafeInteger,
      recordUpdate, recordLookup, jsNumberOpt, jsNumberChars, parseSignedAll,
      parseUnsignedAll, jsTrimChars, jsWs, isDigitC, intDigitsVal, fracDigitsVal, digChar,
      jsParseFloatChars, parseFloatUnsigned]
    try norm_num

/-!
Structure of `durationToSeconds` on colon strings with three or more segments.
-/

theorem splitOnColon_ne_nil (t : List Char) : splitOnColon t ≠ [] := by
  induction t with
  | nil => simp [splitOnColon]
  | cons c rest ih =>
    rw [splitOnColon]
    by_cases hc : c = ':'
    · simp [hc]
    · simp only [hc, if_false]
      match hr : splitOnColon rest with
      | [] => exact absurd hr ih
      | h :: t' => simp

theorem splitOnColon_head (t : List Char) :
    (splitOnColon t).head? = some (t.takeWhile (fun c => !(c == ':'))) := by
  induction t with
  | nil => rfl
  | cons c rest ih =>
    rw [splitOnColon]
    by_cases hc : c = ':'
    · subst hc
      simp [List.takeWhile_cons]
    · simp only [hc, if_false]
      match hr : splitOnColon rest with
      | [] => exact absurd hr (splitOnColon_ne_nil rest)
      | h :: t' =>
        rw [hr] at ih
        simp only [List.head?_cons, Option.some.injEq] at ih
        simp only [List.head?_cons, Option.some.injEq, List.takeWhile_cons]
        have hcb : (c == ':') = false := by simp [hc]
        simp [hcb, ih]

theorem dropWhile_notColon_of_contains (t : List Char) (h : t.contains ':' = true) :
    ∃ r, t.dropWhile (fun c => !(c == ':')) = ':' :: r := by
  induction t with
  | nil => simp at h
  | cons c rest ih =>
    by_cases hc : c = ':'
    · subst hc
      refine ⟨rest, ?_⟩
      rw [List.dropWhile_cons_of_neg]
      simp
    · have hcb : (c == ':') = false := by simp [hc]
      have hrest : rest.contains ':' = true := by
        simp only [List.contains_cons, Bool.or_eq_true] at h
        rcases h with h | h
        · exact absurd (eq_of_beq h).symm hc
        · exact h
      obtain ⟨r, hr⟩ := ih hrest
      refine ⟨r, ?_⟩
      rw [List.dropWhile_cons_of_pos (by simp [hcb])]
      exact hr

theorem takeWhile_all_append (p : Char → Bool) (xs ys : List Char) (y : Char)
    (hxs : xs.all p = true) (hy : p y = false) :
    ((xs ++ y :: ys).takeWhile p = xs) ∧ ((xs ++ y :: ys).dropWhile p = y :: ys) := by
  induction xs with
  | nil =>
    constructor
    · simp [List.takeWhile_cons, hy]
    · simp [List.dropWhile_cons, hy]
  | cons x xs' ih =>
    simp only [List.all_cons, Bool.and_eq_true] at hxs
    have ih' := ih hxs.2
    constructor
    · simp only [List.cons_append, List.takeWhile_cons, hxs.1, ih'.1]
      simp
    · simp only [List.cons_append, List.dropWhile_cons, hxs.1, ih'.2]
      simp [ih'.2]

theorem jsWs_of_digit (c : Char) (hc : isDigitC c = true) : jsWs c = false := by
  cases hws : jsWs c
  · rfl
  · exfalso
    simp only [jsWs, Bool.or_eq_true, decide_eq_true_eq] at hws
    rcases hws with ((h1 | h1) | h1) | h1 <;> subst h1 <;> exact absurd hc (by decide)

theorem parseFloat_digits_prefix (seg r : List Char)
    (hne : seg.isEmpty = false) (hd : seg.all isDigitC = true) :
    jsParseFloatChars (seg ++ ':' :: r) = some ((intDigitsVal seg : ℚ)) := by
  have hcolon : isDigitC ':' = false := by decide
  have htk := takeWhile_all_append isDigitC seg r ':' hd hcolon
  cases seg with
  | nil => simp at hne
  | cons c seg' =>
    have hc : isDigitC c = true := by
      simp only [List.all_cons, Bool.and_eq_true] at hd
      exact hd.1
    have hdw : List.dropWhile jsWs ((c :: seg') ++ ':' :: r) = (c :: seg') ++ ':' :: r := by
      rw [List.cons_append, List.dropWhile_cons_of_neg (by simp [jsWs_of_digit c hc])]
    have hplus : ¬ c = '+' := by
      intro hcc
      rw [hcc] at hc
      exact absurd hc (by decide)
    have hminus : ¬ c = '-' := by
      intro hcc
      rw [hcc] at hc
      exact absurd hc (by decide)
    simp only [jsParseFloatChars]
    rw [hdw, List.cons_append]
    split
    · next heq => exfalso; injection heq with h1 _; exact hplus h1
    · next heq => exfalso; injection heq with h1 _; exact hminus h1
    · simp only [parseFloatUnsigned]
      rw [← List.cons_append, htk.1, htk.2]
      have hfp : (match ':' :: r with
          | '.' :: r2 => r2.takeWhile isDigitC
          | _ => ([] : List Char)) = [] := by
        split
        · next heq => exfalso; injection heq with h1 _; exact absurd h1.symm (by decide)
        · rfl
      rw [hfp]
      simp [fracDigitsVal]

theorem parseFloat_head_segment (t : List Char) (h : t.contains ':' = true)
    (hne : (t.takeWhile (fun c => !(c == ':'))).isEmpty = false)
    (hd : (t.takeWhile (fun c => !(c == ':'))).all isDigitC = true) :
    jsParseFloatChars t = some ((intDigitsVal (t.takeWhile (fun c => !(c == ':'))) : ℚ)) := by
  obtain ⟨r, hr⟩ := dropWhile_notColon_of_contains t h
  set seg := t.takeWhile (fun c => !(c == ':')) with hseg
  have ht : t = seg ++ ':' :: r := by
    rw [hseg, ← hr]
    exact (List.takeWhile_append_dropWhile (fun c => !(c == ':')) t).symm
  rw [ht]
  exact parseFloat_digits_prefix seg r hne hd

/-- C10 amended: a duration string containing a colon, all of whose
colon-separated segments parse as numbers, with other than exactly two
segments, falls through to `parseFloat` of the whole trimmed string; when its
leading segment is a non-empty digit string, the result is exactly that
leading segment's numeric value, and such a stop is counted by the per-stop
fold (its per-driver stop count is incremented) rather than dropped. (As the
counterexample shows, a string whose leading segment is empty, e.g. ":1:2",
instead makes `parseFloat` return NaN and is rejected as unparseable.) -/
theorem C10_multi_segment_parsefloat (s : String)
    (h1 : ((jsTrimChars s.toList).contains ':') = true)
    (h2 : (((splitOnColon (jsTrimChars s.toList)).map jsNumberChars).any Option.isNone) = false)
    (h3 : (((splitOnColon (jsTrimChars s.toList)).length == 2)) = false) :
    PitstopsPage.durationToSeconds (some s) = jsParseFloatChars (jsTrimChars s.toList)
  ∧ (∀ seg, (splitOnColon (jsTrimChars s.toList)).head? = some seg →
      (seg.isEmpty = false) → (seg.all isDigitC = true) →
      PitstopsPage.durationToSeconds (some s) = some ((intDigitsVal seg : ℚ))
    ∧ (∀ (season round raceName : String) (st : PitstopsPage.PitFoldState)
        (drv lap stp : Option String),
        (PitstopsPage.foldStop season round raceName st ⟨some s, drv, lap, stp⟩).stopsByDriver
          = recordUpdate st.stopsByDriver (drv.getD "unknown") 0 (fun c => c + 1))) := by
  have hne' : (jsTrimChars s.toList).isEmpty = false := by
    cases hcase : jsTrimChars s.toList with
    | nil => rw [hcase] at h1; simp at h1
    | cons a l => simp
  have hlen : ¬ ((splitOnColon (jsTrimChars s.toList)).length = 2) := by
    intro hcc
    rw [hcc] at h3
    simp at h3
  have hfall : PitstopsPage.durationToSeconds (some s)
      = jsParseFloatChars (jsTrimChars s.toList) := by
    have hmem : ':' ∈ jsTrimChars s.toList := by simpa using h1
    have hnil : ¬ (jsTrimChars s.toList = []) := by simpa using hne'
    have hall : ∀ a ∈ splitOnColon (jsTrimChars s.toList), ¬ (jsNumberChars a = none) := by
      simpa using h2
    have hnone : ¬ ∃ a ∈ splitOnColon (jsTrimChars s.toList), jsNumberChars a = none := by
      rintro ⟨a, ha, hav⟩
      exact hall a ha hav
    have hmem2 : ':' ∈ jsTrimChars s.data := hmem
    have hnil2 : ¬ jsTrimChars s.data = [] := hnil
    have hnone2 : ¬ ∃ a ∈ splitOnColon (jsTrimChars s.data), jsNumberChars a = none := hnone
    have hlen2 : ¬ (splitOnColon (jsTrimChars s.data)).length = 2 := hlen
    simp [PitstopsPage.durationToSeconds, hnil2, hmem2, hnone2, hlen2]
  refine ⟨hfall, ?_⟩
  intro seg hhead hsegne hsegd
  have hseg : seg = (jsTrimChars s.toList).takeWhile (fun c => !(c == ':')) := by
    rw [splitOnColon_head (jsTrimChars s.toList)] at hhead
    exact (Option.some.inj hhead).symm
  have hval : PitstopsPage.durationToSeconds (some s) = some ((intDigitsVal seg : ℚ)) := by
    rw [hfall, hseg]
    exact parseFloat_head_segment (jsTrimChars s.toList) h1
      (by rw [← hseg]; exact hsegne) (by rw [← hseg]; exact hsegd)
  refine ⟨hval, ?_⟩
  intro season round raceName st drv lap stp
  simp [PitstopsPage.foldStop, hval]

/-- C10 counterexample: the string ":1:2" satisfies the claim's guards — it
contains a colon, every colon-separated segment parses as a number under
`Number()` (the empty leading segment parses to 0), and it has 3 ≠ 2
segments — yet `durationToSeconds` returns `null` (parseFloat of ":1:2" is
NaN), rejecting it as unparseable instead of returning the leading segment's
numeric value and including it in the statistics. -/
theorem C10_counterexample_empty_leading_segment :
    PitstopsPage.durationToSeconds (some ":1:2") = none
  ∧ ((jsTrimChars ":1:2".toList).contains ':') = true
  ∧ (((splitOnColon (jsTrimChars ":1:2".toList)).map jsNumberChars).any Option.isNone) = false
  ∧ (((splitOnColon (jsTrimChars ":1:2".toList)).length == 2)) = false := by
  refine ⟨by decide, by decide, by decide, by decide⟩

/-- Witness for C10's amended statement at "1:02:03": the guards hold, the
head segment is the digit string "1", and the parser yields its value. -/
theorem C10_multi_segment_parsefloat_witness :
    ((jsTrimChars "1:02:03".toList).contains ':') = true
  ∧ (((splitOnColon (jsTrimChars "1:02:03".toList)).map jsNumberChars).any Option.isNone) = false
  ∧ (((splitOnColon (jsTrimChars "1:02:03".toList)).length == 2)) = false
  ∧ (splitOnColon (jsTrimChars "1:02:03".toList)).head? = some ['1']
  ∧ PitstopsPage.durationToSeconds (some "1:02:03") = some ((intDigitsVal ['1'] : ℚ)) :=
  ⟨by decide, by decide, by decide, by decide,
    ((C10_multi_segment_parsefloat "1:02:03" (by decide) (by decide) (by decide)).2
      ['1'] (by decide) (by decide) (by decide)).1⟩
